import Mathlib

/-!
Verification of the idea-generation pipeline against its specification.

Each Python component that the claims touch is shallowly embedded as
executable Lean definitions: file-backed state becomes explicit state
records passed in and out, `datetime.now()`-derived window keys become
explicit parameters, Python floats become rationals, and fallible calls
return `Option`.  Definitions follow the source files:

  * `src/utils/budget_manager.py`   (`BudgetManager`)
  * `src/utils/rate_limiter.py`     (`RateLimiter`)
  * `src/utils/history_manager.py`  (`HistoryManager`)
  * `src/collectors/news_aggregator.py` (`NewsAggregator`)
  * `src/interfaces/notion_delivery.py` (`NotionDelivery`)
  * `src/interfaces/discord_delivery.py` (`DiscordDelivery`)
  * `src/generator/perplexity_discovery.py` (`PerplexityDiscovery`)
  * `src/generator/ultimate_discovery.py` (`UltimateAIDiscovery`)
-/

namespace IdeaGen

/-! ## Budget manager (`src/utils/budget_manager.py`)

The persisted JSON record holds `current_month`, `total_spend`,
`daily_spend`, `runs_this_month` plus ISO-timestamp bookkeeping fields
(`last_reset`, `last_updated`) that no control flow reads; the timestamp
strings are elided from the state record.  `datetime.now().strftime("%Y-%m")`
becomes the explicit `current_month` argument. -/

structure BudgetData where
  current_month : String
  total_spend : ℚ
  daily_spend : ℚ
  runs_this_month : ℕ
deriving Repr, DecidableEq

/-- `BudgetManager.MONTHLY_LIMIT = 5.0` ($5.00 USD). -/
def MONTHLY_LIMIT : ℚ := 5

/-- `BudgetManager.check_budget`: roll the month over if the stored
`current_month` differs from the current one (zeroing `total_spend` and
`runs_this_month`), then report whether `total_spend` is under the limit.
Returns the (possibly persisted) new state together with the boolean. -/
def check_budget (d : BudgetData) (current_month : String) : BudgetData × Bool :=
  let d :=
    if d.current_month ≠ current_month then
      { d with current_month := current_month, total_spend := 0, runs_this_month := 0 }
    else d
  if d.total_spend ≥ MONTHLY_LIMIT then (d, false) else (d, true)

/-- `BudgetManager.record_spending`: unconditionally add `amount` to
`total_spend` and bump `runs_this_month`, then persist. -/
def record_spending (d : BudgetData) (amount : ℚ) : BudgetData :=
  { d with total_spend := d.total_spend + amount,
           runs_this_month := d.runs_this_month + 1 }

/-! ## Rate limiter (`src/utils/rate_limiter.py`)

The usage record holds the daily script counter with its day key and the
hourly news-fetch counter with its hour key; `last_updated` is elided as
above.  The `"%Y-%m-%d"` and `"%Y-%m-%d %H"` keys derived from
`datetime.now()` become the explicit `today` / `current_hour` arguments. -/

structure UsageData where
  scripts_today : ℕ
  scripts_date : String
  news_fetches_this_hour : ℕ
  news_fetch_hour : String
deriving Repr, DecidableEq

/-- `RateLimiter._reset_if_needed`: zero the daily counter when the stored
day key differs from today, and the hourly counter when the stored hour key
differs from the current hour; each reset also rewrites its key. -/
def reset_if_needed (u : UsageData) (today current_hour : String) : UsageData :=
  let u :=
    if u.scripts_date ≠ today then
      { u with scripts_today := 0, scripts_date := today }
    else u
  if u.news_fetch_hour ≠ current_hour then
    { u with news_fetches_this_hour := 0, news_fetch_hour := current_hour }
  else u

/-- `RateLimiter.can_generate_script`: reset stale windows first, then allow
unless the daily counter has reached `max_per_day`. -/
def can_generate_script (u : UsageData) (today current_hour : String)
    (max_per_day : ℕ) : UsageData × Bool :=
  let u := reset_if_needed u today current_hour
  if u.scripts_today ≥ max_per_day then (u, false) else (u, true)

/-- `RateLimiter.can_fetch_news`: reset stale windows first, then allow
unless the hourly counter has reached `max_per_hour`. -/
def can_fetch_news (u : UsageData) (today current_hour : String)
    (max_per_hour : ℕ) : UsageData × Bool :=
  let u := reset_if_needed u today current_hour
  if u.news_fetches_this_hour ≥ max_per_hour then (u, false) else (u, true)

/-! ## Idea history (`src/utils/history_manager.py`) -/

/-- `HistoryManager.MAX_HISTORY = 50`. -/
def MAX_HISTORY : ℕ := 50

/-- The title extraction in `HistoryManager.add_ideas`:
`[idea.get("title", "") for idea in ideas if idea.get("title")]`.
An idea dict is represented by its `"title"` lookup result
(`none` = key absent). Absent or empty titles are filtered out. -/
def new_titles (ideas : List (Option String)) : List String :=
  ideas.filterMap fun t =>
    match t with
    | some s => if s = "" then none else some s
    | none => none

/-- `HistoryManager.add_ideas`: extend the stored list with the extracted
titles, then truncate to the last `MAX_HISTORY` entries when over the cap
(Python `self.history[-self.MAX_HISTORY:]`). -/
def add_ideas (history : List String) (ideas : List (Option String)) : List String :=
  let h := history ++ new_titles ideas
  if h.length > MAX_HISTORY then h.drop (h.length - MAX_HISTORY) else h

/-! ## Python string primitives

The source manipulates Python `str` values with `.lower()`, `.upper()`,
`[:n]` slicing, `.strip()` and the `in` substring test.  Python case
mapping is the full Unicode one, where a single character may case-map to
several (`'ß'.upper() = "SS"`); it is modelled per character as a
character-to-string expansion covering the ASCII range plus the special
casings that change behaviour here (`ß`, `ſ`, `İ`); other non-ASCII
letters are left unchanged (a documented fragment of the Unicode
tables). -/

/-- Python `str.lower` of one character: `'İ'` (U+0130) lowercases to
`"i"` followed by the combining dot above (U+0307), ASCII letters via
`Char.toLower`. -/
def py_lower_char (c : Char) : List Char :=
  if c = 'İ' then ['i', Char.ofNat 0x307]
  else [Char.toLower c]

/-- Python `s.lower()`. -/
def py_lower (s : String) : String := ⟨s.data.flatMap py_lower_char⟩

/-- Python `s[:n]` (slice of the first `n` code points). -/
def py_slice (n : ℕ) (s : String) : String := ⟨s.data.take n⟩

/-- Python's `sub in s` substring test (`True` for the empty substring). -/
def contains_sub (s sub : String) : Bool :=
  s.data.tails.any fun t => sub.data.isPrefixOf t

/-! ## News history and duplicate check (`src/collectors/news_aggregator.py`) -/

/-- `NewsAggregator._save_history`: append the normalized titles of the
delivered items to `seen_titles` and keep the last 100
(Python `all_titles[-100:]`, applied unconditionally). -/
def save_history (seen_titles : List String) (item_titles : List String) : List String :=
  let titles := item_titles.map fun t => py_slice 50 (py_lower t)
  let all_titles := seen_titles ++ titles
  all_titles.drop (all_titles.length - 100)

/-! ## Item scorer (`NewsAggregator._score_item`)

`item.published` is an optional timestamp; `datetime.now()` and the stored
`datetime` become rationals measured in seconds, so
`(datetime.now() - item.published).total_seconds() / 3600` is
`(now - p) / 3600`. -/

/-- The fixed keyword vocabulary `ai_keywords` of `_score_item`. -/
def ai_keywords : List String :=
  ["ai", "gpt", "claude", "gemini", "llm", "chatgpt", "openai",
   "anthropic", "deepseek", "midjourney", "runway", "sora",
   "automation", "agent", "model", "neural", "machine learning"]

/-- Recency component: `max(0, 40 - hours_old * 2)` when `published` is
known, a fixed `20` otherwise. -/
def recency_score (now : ℚ) (published : Option ℚ) : ℚ :=
  match published with
  | some p => max 0 (40 - ((now - p) / 3600) * 2)
  | none => 20

/-- Keyword-relevance component: `min(30, keyword_matches * 10)` where
`keyword_matches` counts vocabulary words occurring in the lowercased
title. -/
def relevance_score (title : String) : ℚ :=
  let title_lower := py_lower title
  let keyword_matches := (ai_keywords.filter fun kw => contains_sub title_lower kw).length
  min 30 ((keyword_matches : ℚ) * 10)

/-- Engagement component: the fixed additive bonuses of
`engagement_signals`. -/
def engagement_score (title : String) : ℚ :=
  let title_lower := py_lower title
  let engagement_signals : List (Bool × ℚ) :=
    [(contains_sub title "?", 10),
     (title.data.any Char.isDigit, 5),
     (contains_sub title_lower "new" || contains_sub title_lower "launch", 10),
     (contains_sub title_lower "free", 5),
     (contains_sub title_lower "vs" || contains_sub title_lower "better", 5)]
  engagement_signals.foldl (fun acc s => if s.1 then acc + s.2 else acc) 0

/-- `NewsAggregator._score_item`: the three components accumulated into
`score` in source order, then `min(100, score)`. -/
def score_item (now : ℚ) (title : String) (published : Option ℚ) : ℚ :=
  min 100 (recency_score now published + relevance_score title + engagement_score title)

/-- Python `s.strip()`: drop leading and trailing whitespace. -/
def py_strip (s : String) : String :=
  ⟨((s.data.dropWhile Char.isWhitespace).reverse.dropWhile Char.isWhitespace).reverse⟩

/-! ## Canonical news item (`src/collectors/rss_collector.py`, `NewsItem`)

The dataclass declares `score: float`, but `NotionDelivery` defensively
converts with `float(item.score)` under a `try/except (ValueError,
TypeError)`; the runtime value of the `score` attribute is therefore
modelled as either a number or an opaque non-numeric value on which
`float()` raises.  The presentation-only `content_blocks` escape hatch is
not involved in any claim and is elided. -/

inductive ScoreVal where
  | num (q : ℚ)
  | nonNumeric
deriving Repr, DecidableEq

structure NewsItem where
  id : String
  title : String
  source : String
  link : String
  summary : String
  published : Option ℚ
  score : ScoreVal
  category : String
deriving Repr, DecidableEq

/-! ## Notion delivery (`src/interfaces/notion_delivery.py`)

`self.db_properties` is the schema cached by `test_connection`: a mapping
from property name to a property object whose `"type"` tag is all the code
reads.  It is modelled as an association list preserving Notion's key
order; only the type tags the code branches on are distinguished. -/

inductive PropType where
  | status
  | select
  | multi_select
  | other
deriving Repr, DecidableEq

/-- An outbound Notion property value, one constructor per payload shape
the property builder emits. -/
inductive PropValue where
  | title_v (text : String)
  | select (name : String)
  | url (link : String)
  | number (value : ℚ)
  | status_v (name : String)
  | multi_select (name : String)
  | date (start : ℚ)
deriving Repr, DecidableEq

/-- `NotionDelivery._find_property`: first database property whose name
matches `name` up to surrounding whitespace and case. -/
def find_property (db_properties : List (String × PropType)) (name : String) :
    Option String :=
  (db_properties.find? fun p => py_lower (py_strip p.1) == py_lower (py_strip name)).map (·.1)

/-- `self.db_properties[prop]["type"]`: the type tag of a property that
`find_property` returned. -/
def property_type (db_properties : List (String × PropType)) (prop : String) :
    Option PropType :=
  (db_properties.find? fun p => p.1 == prop).map (·.2)

/-- Python `round(x, 1)` on the clamped score.  The claims only depend on
`round1` mapping `[1, 10]` into itself, which holds for any
round-to-nearest tie convention; the model uses Mathlib's `round`. -/
def round1 (q : ℚ) : ℚ := (round (q * 10) : ℚ) / 10

/-- The `Score` value computed in `_build_simple_properties` item 3:
`float(item.score)`, halved scale when above 10, clamped to `[1.0, 10.0]`,
rounded to one decimal; `5.0` when `float()` raises. -/
def delivered_score (v : ScoreVal) : ℚ :=
  match v with
  | .num s =>
    let score_val := if s > 10 then s / 10 else s
    round1 (max 1 (min 10 score_val))
  | .nonNumeric => 5

/-- `NotionDelivery._build_simple_properties`: the outbound property map,
as the insertion-ordered association list the Python dict builds.  `now`
stands for `datetime.now()` in the `Date Added` branch.  Branch 7 of the
source is a deliberate no-op: `"Approved"` is never added. -/
def build_simple_properties (db_properties : List (String × PropType))
    (item : NewsItem) (now : ℚ) : List (String × PropValue) :=
  let title_prop_name :=
    ((find_property db_properties "Title").or (find_property db_properties "Name")).getD "Title"
  [(title_prop_name, PropValue.title_v (py_slice 90 item.title))]
  ++ (match find_property db_properties "Source" with
      | some p => [(p, PropValue.select (py_slice 30 item.source))]
      | none => [])
  ++ (match find_property db_properties "Link" with
      | some p => if item.link ≠ "" then [(p, PropValue.url item.link)] else []
      | none => [])
  ++ (match find_property db_properties "Score" with
      | some p => [(p, PropValue.number (delivered_score item.score))]
      | none => [])
  ++ (match find_property db_properties "Status" with
      | some p =>
        match property_type db_properties p with
        | some .status => [(p, PropValue.status_v "New")]
        | some .select => [(p, PropValue.select "New")]
        | _ => []
      | none => [])
  ++ (match find_property db_properties "Category" with
      | some p =>
        let category := if item.category = "ai_news" then "AI" else "Trending"
        match property_type db_properties p with
        | some .select => [(p, PropValue.select category)]
        | some .multi_select => [(p, PropValue.multi_select category)]
        | _ => []
      | none => [])
  ++ (match find_property db_properties "Date Added" with
      | some p => [(p, PropValue.date (item.published.getD now))]
      | none => [])

/-! ## Discord delivery (`src/interfaces/discord_delivery.py`)

`deliver_daily_ideas` first POSTs a header text message, then POSTs the
embed batches.  Only the embed batches matter to the claims; an embed is
modelled by the fields derived from the item (colour, footer and timestamp
presentation elided). -/

structure DiscordEmbed where
  title : String
  description : String
  url : String
deriving Repr, DecidableEq

/-- The embed built for `(idx, item)` in `enumerate(items[:10], 1)`. -/
def mk_embed (idx : ℕ) (item : NewsItem) : DiscordEmbed :=
  { title := toString idx ++ ". " ++ py_slice 100 item.title,
    description := if item.summary ≠ "" then py_slice 200 item.summary else "No summary",
    url := item.link }

/-- The embed list of `deliver_daily_ideas`: built from `items[:10]` only
(`for idx, item in enumerate(items[:10], 1)`). -/
def discord_embeds (items : List NewsItem) : List DiscordEmbed :=
  (items.take 10).mapIdx fun i item => mk_embed (i + 1) item

/-- Python `for i in range(0, len(l), n): chunk = l[i:i+n]`, fuel-bounded
(`chunks_of_run n (fuel) l`; the caller supplies fuel ≥ `l.length`). -/
def chunks_of_run (n : ℕ) : ℕ → List α → List (List α)
  | _, [] => []
  | 0, _ => []
  | fuel + 1, l => l.take n :: chunks_of_run n fuel (l.drop n)

def chunks_of (n : ℕ) (l : List α) : List (List α) := chunks_of_run n l.length l

/-- The embed-batch POST bodies of `deliver_daily_ideas`: the embed list
split into chunks of 10 (`for i in range(0, len(embeds), 10)`). -/
def embed_batches (items : List NewsItem) : List (List DiscordEmbed) :=
  chunks_of 10 (discord_embeds items)

/-! ## Research client (`src/generator/perplexity_discovery.py`)

`_query_perplexity` is decorated with
`@retry(stop=stop_after_attempt(2), wait=wait_exponential(...))`; tenacity
re-invokes the body only when it *raises*.  The body wraps the whole HTTP
interaction in `try/except Exception: return None`, so it is modelled as a
function that always returns normally (`Except.ok`), pairing the optional
result with the `session_cost` increment.  The transport is an oracle
giving the outcome of each attempt; `UltimateAIDiscovery._query` has the
same decorator/except structure. -/

structure ApiResponse where
  content : String
  citations : List String
  prompt_tokens : ℕ
  completion_tokens : ℕ
deriving Repr, DecidableEq

inductive AttemptOutcome where
  /-- 2xx response with usable JSON body. -/
  | success (r : ApiResponse)
  /-- `raise_for_status` raised `HTTPError` (4xx/5xx). -/
  | http_error (status : ℕ)
  /-- timeout / connection failure / any other exception inside the `try`. -/
  | transport_error
deriving Repr, DecidableEq

structure QueryResult where
  content : String
  citations : List String
  tokens : ℕ
  cost : ℚ
deriving Repr, DecidableEq

/-- One execution of the `_query_perplexity` body: never raises; returns
the optional result and the amount added to `session_cost`
(`cost = tokens * 0.000001`). -/
def query_perplexity_once (api_key : Bool) (outcome : AttemptOutcome) :
    Except Unit (Option QueryResult × ℚ) :=
  if !api_key then .ok (none, 0)
  else
    match outcome with
    | .success r =>
      let tokens := r.prompt_tokens + r.completion_tokens
      let cost := (tokens : ℚ) * (1 / 1000000)
      .ok (some ⟨r.content, r.citations, tokens, cost⟩, cost)
    | .http_error _ => .ok (none, 0)
    | .transport_error => .ok (none, 0)

/-- tenacity with `stop_after_attempt(2)`: run attempt 0; re-run (after the
exponential wait) only if it raised; also report how many attempts ran. -/
def retry_two (f : ℕ → Except Unit α) : Except Unit α × ℕ :=
  match f 0 with
  | .ok a => (.ok a, 1)
  | .error _ =>
    match f 1 with
    | .ok a => (.ok a, 2)
    | .error e => (.error e, 2)

/-- The decorated `_query_perplexity` against an attempt oracle. -/
def query_perplexity (api_key : Bool) (outcomes : ℕ → AttemptOutcome) :
    Except Unit (Option QueryResult × ℚ) × ℕ :=
  retry_two fun i => query_perplexity_once api_key (outcomes i)

/-! ## JSON values and strict parsing (`json.loads`)

`UltimateAIDiscovery._parse_json` leans on Python's strict `json` module.
A JSON value is embedded as `Json`; numbers are kept as exact decimals
(`mantissa * 10 ^ exp10`), which avoids modelling float rounding — no claim
compares numeric values.  Parsing is fuel-bounded recursive descent; the
caller passes fuel larger than the input length. -/

inductive Json where
  | null
  | bool (b : Bool)
  | num (mantissa : Int) (exp10 : Int)
  | str (s : String)
  | arr (elems : List Json)
  | obj (members : List (String × Json))

/-- The four JSON whitespace characters. -/
def is_json_ws (c : Char) : Bool := c = ' ' || c = '\t' || c = '\n' || c = '\r'

def skip_ws : List Char → List Char
  | c :: rest => if is_json_ws c then skip_ws rest else c :: rest
  | [] => []

def hex_val (c : Char) : Option ℕ :=
  if '0' ≤ c ∧ c ≤ '9' then some (c.toNat - 48)
  else if 'a' ≤ c ∧ c ≤ 'f' then some (c.toNat - 87)
  else if 'A' ≤ c ∧ c ≤ 'F' then some (c.toNat - 55)
  else none

/-- Body of a JSON string after the opening quote: ends at `"`, accepts the
standard escapes (`\uXXXX` as a raw code unit; surrogate pairing elided),
rejects unescaped control characters as `json.loads` does. -/
def parse_string_body : ℕ → List Char → Option (List Char × List Char)
  | 0, _ => none
  | _ + 1, [] => none
  | fuel + 1, c :: rest =>
    if c = '"' then some ([], rest)
    else if c = '\\' then
      match rest with
      | [] => none
      | e :: rest2 =>
        let cont := fun (ch : Char) (r : List Char) =>
          (parse_string_body fuel r).map fun sr => (ch :: sr.1, sr.2)
        if e = '"' then cont '"' rest2
        else if e = '\\' then cont '\\' rest2
        else if e = '/' then cont '/' rest2
        else if e = 'b' then cont (Char.ofNat 8) rest2
        else if e = 'f' then cont (Char.ofNat 12) rest2
        else if e = 'n' then cont '\n' rest2
        else if e = 'r' then cont '\r' rest2
        else if e = 't' then cont '\t' rest2
        else if e = 'u' then
          match rest2 with
          | h1 :: h2 :: h3 :: h4 :: rest3 =>
            match hex_val h1, hex_val h2, hex_val h3, hex_val h4 with
            | some a, some b, some c2, some d =>
              cont (Char.ofNat (((a * 16 + b) * 16 + c2) * 16 + d)) rest3
            | _, _, _, _ => none
          | _ => none
        else none
    else if c.toNat < 32 then none
    else (parse_string_body fuel rest).map fun sr => (c :: sr.1, sr.2)

def digits_to_nat (ds : List Char) : ℕ := ds.foldl (fun a c => a * 10 + (c.toNat - 48)) 0

/-- A JSON number (`-? int frac? exp?`, no leading zeros), returned as the
decimal `(mantissa, exp10)`. -/
def parse_number (l : List Char) : Option ((Int × Int) × List Char) :=
  let signed : Bool × List Char := match l with
    | '-' :: r => (true, r)
    | _ => (false, l)
  let neg := signed.1
  let l1 := signed.2
  let int_part : Option (List Char × List Char) := match l1 with
    | '0' :: r => some (['0'], r)
    | c :: _ =>
      if c.isDigit then some (l1.takeWhile Char.isDigit, l1.dropWhile Char.isDigit)
      else none
    | [] => none
  match int_part with
  | none => none
  | some (ids, r1) =>
    let frac_part : Option (List Char × List Char) := match r1 with
      | '.' :: r2 =>
        let ds := r2.takeWhile Char.isDigit
        if ds.length = 0 then none else some (ds, r2.dropWhile Char.isDigit)
      | _ => some ([], r1)
    match frac_part with
    | none => none
    | some (fds, r2) =>
      let exp_part : Option (Int × List Char) := match r2 with
        | c :: r3 =>
          if c = 'e' ∨ c = 'E' then
            let se : Bool × List Char := match r3 with
              | '-' :: r4 => (true, r4)
              | '+' :: r4 => (false, r4)
              | _ => (false, r3)
            let ds := se.2.takeWhile Char.isDigit
            if ds.length = 0 then none
            else
              some ((if se.1 then -(digits_to_nat ds : Int) else (digits_to_nat ds : Int)),
                se.2.dropWhile Char.isDigit)
          else some (0, r2)
        | [] => some (0, r2)
      match exp_part with
      | none => none
      | some (e, r4) =>
        let m : Int := digits_to_nat (ids ++ fds)
        some ((if neg then -m else m, e - (fds.length : Int)), r4)

/-- Parser modes: a JSON value, the element list of an array after `[`, or
the member list of an object after `{` (both nonempty; the empty cases are
handled at the bracket). -/
inductive PMode where
  | value
  | elements
  | members

inductive POut where
  | val (j : Json)
  | elems (es : List Json)
  | membs (ms : List (String × Json))

/-- Fuel-bounded recursive descent over the grammar accepted by Python's
strict `json.loads`: notably no trailing commas, so `[..., ]` fails — after
a comma an element must follow. -/
def parse_run : ℕ → PMode → List Char → Option (POut × List Char)
  | 0, _, _ => none
  | fuel + 1, .value, l =>
    (match skip_ws l with
    | [] => none
    | c :: rest =>
      if c = '"' then
        (parse_string_body (fuel + 1) rest).map fun sr => (POut.val (Json.str ⟨sr.1⟩), sr.2)
      else if c = '[' then
        match skip_ws rest with
        | ']' :: r2 => some (POut.val (Json.arr []), r2)
        | l2 =>
          match parse_run fuel .elements l2 with
          | some (POut.elems es, r2) => some (POut.val (Json.arr es), r2)
          | _ => none
      else if c = '{' then
        match skip_ws rest with
        | '}' :: r2 => some (POut.val (Json.obj []), r2)
        | l2 =>
          match parse_run fuel .members l2 with
          | some (POut.membs ms, r2) => some (POut.val (Json.obj ms), r2)
          | _ => none
      else if c = 't' then
        match rest with
        | 'r' :: 'u' :: 'e' :: r2 => some (POut.val (Json.bool true), r2)
        | _ => none
      else if c = 'f' then
        match rest with
        | 'a' :: 'l' :: 's' :: 'e' :: r2 => some (POut.val (Json.bool false), r2)
        | _ => none
      else if c = 'n' then
        match rest with
        | 'u' :: 'l' :: 'l' :: r2 => some (POut.val (Json.null), r2)
        | _ => none
      else
        (parse_number (c :: rest)).map fun vr => (POut.val (Json.num vr.1.1 vr.1.2), vr.2))
  | fuel + 1, .elements, l =>
    (match parse_run fuel .value l with
    | some (POut.val v, r) =>
      (match skip_ws r with
      | ',' :: r2 =>
        match parse_run fuel .elements r2 with
        | some (POut.elems es, r3) => some (POut.elems (v :: es), r3)
        | _ => none
      | ']' :: r2 => some (POut.elems [v], r2)
      | _ => none)
    | _ => none)
  | fuel + 1, .members, l =>
    (match skip_ws l with
    | '"' :: r =>
      (match parse_string_body (fuel + 1) r with
      | none => none
      | some (k, r1) =>
        match skip_ws r1 with
        | ':' :: r2 =>
          (match parse_run fuel .value r2 with
          | some (POut.val v, r3) =>
            (match skip_ws r3 with
            | ',' :: r4 =>
              (match parse_run fuel .members r4 with
              | some (POut.membs ms, r5) => some (POut.membs ((⟨k⟩, v) :: ms), r5)
              | _ => none)
            | '}' :: r4 => some (POut.membs [(⟨k⟩, v)], r4)
            | _ => none)
          | _ => none)
        | _ => none)
    | _ => none)

/-- `json.loads`: parse one document allowing only trailing whitespace;
`none` models `json.JSONDecodeError`. -/
def loads (s : String) : Option Json :=
  match parse_run (2 * s.data.length + 4) .value s.data with
  | some (POut.val v, rest) => if (skip_ws rest).isEmpty then some v else none
  | _ => none

/-! ## Lenient array extraction (`UltimateAIDiscovery._parse_json`) -/

/-- The Python regex `\s` character class (over ASCII). -/
def is_re_ws (c : Char) : Bool :=
  c = ' ' || c = '\t' || c = '\n' || c = '\r' || c = '\x0c' || c = '\x0b'

/-- `re.sub(r'```json?\s*', '', s)`: leftmost scan; a match is three
backticks, `jso`, an optional `n`, then greedy whitespace, replaced by
nothing, scanning resuming after the match. -/
def sub_fence_json : ℕ → List Char → List Char
  | 0, l => l
  | fuel + 1, l =>
    match l with
    | '\x60' :: '\x60' :: '\x60' :: 'j' :: 's' :: 'o' :: r =>
      let r := match r with
        | 'n' :: r2 => r2
        | _ => r
      sub_fence_json fuel (r.dropWhile is_re_ws)
    | c :: rest => c :: sub_fence_json fuel rest
    | [] => []

/-- `re.sub(r'```\s*', '', s)`. -/
def sub_fence : ℕ → List Char → List Char
  | 0, l => l
  | fuel + 1, l =>
    match l with
    | '\x60' :: '\x60' :: '\x60' :: r => sub_fence fuel (r.dropWhile is_re_ws)
    | c :: rest => c :: sub_fence fuel rest
    | [] => []

/-- `re.sub(r',\s*X', 'X', s)` for a closing bracket `X`: a comma followed
by greedy whitespace and `X` collapses to `X`. -/
def sub_comma_close (close : Char) : ℕ → List Char → List Char
  | 0, l => l
  | _ + 1, [] => []
  | fuel + 1, c :: rest =>
    if c = ',' then
      match rest.dropWhile is_re_ws with
      | d :: r2 =>
        if d = close then close :: sub_comma_close close fuel r2
        else c :: sub_comma_close close fuel rest
      | [] => c :: sub_comma_close close fuel rest
    else c :: sub_comma_close close fuel rest

/-- `UltimateAIDiscovery._parse_json`: strip, remove code fences, take the
substring from the first `[` to the last `]`, collapse newlines to spaces,
drop trailing commas before `]` / `}`, and strict-parse; if any of that
fails, strict-parse the fence-stripped text and require a list; otherwise
return `[]`.  (In the bracket path a successful strict parse necessarily
yields an array, since the substring starts with `[`; the `[v]` branch is
dead.) -/
def parse_json (content0 : String) : List Json :=
  let content := py_strip content0
  let content : List Char := sub_fence_json (content.data.length + 1) content.data
  let content : List Char := sub_fence (content.length + 1) content
  let start? := content.findIdx? (· = '[')
  let end? : Option ℕ := match content.reverse.findIdx? (· = ']') with
    | some k => some (content.length - 1 - k)
    | none => none
  let fallback : List Json := match loads ⟨content⟩ with
    | some (Json.arr xs) => xs
    | some _ => []
    | none => []
  match start?, end? with
  | some s, some e =>
    if e > s then
      let json_str := (content.drop s).take (e + 1 - s)
      let json_str := json_str.map fun c => if c = '\n' then ' ' else c
      let json_str := sub_comma_close ']' (json_str.length + 1) json_str
      let json_str := sub_comma_close '\x7d' (json_str.length + 1) json_str
      match loads ⟨json_str⟩ with
      | some (Json.arr xs) => xs
      | some v => [v]
      | none => fallback
    else fallback
  | _, _ => fallback

/-! # Helper lemmas -/

theorem toNat_ofNat_valid (n : ℕ) (h : Nat.isValidChar n) : (Char.ofNat n).toNat = n := by
  simp [Char.ofNat, h, Char.toNat, Char.ofNatAux]
  exact BitVec.toNat_ofNatLt _ _

/-- ASCII case mapping: lowercasing after uppercasing is lowercasing. -/
theorem toLower_toUpper (c : Char) : Char.toLower (Char.toUpper c) = Char.toLower c := by
  simp only [Char.toUpper, Char.toLower]
  by_cases h : c.toNat ≥ 97 ∧ c.toNat ≤ 122
  · rw [if_pos h]
    have hv : Nat.isValidChar (c.toNat - 32) := Or.inl (by omega)
    rw [toNat_ofNat_valid _ hv]
    rw [if_pos (by omega : c.toNat - 32 ≥ 65 ∧ c.toNat - 32 ≤ 90),
        if_neg (by omega : ¬(c.toNat ≥ 65 ∧ c.toNat ≤ 90))]
    have h32 : c.toNat - 32 + 32 = c.toNat := by omega
    rw [h32, Char.ofNat_toNat]
  · rw [if_neg h]

/-! # Theorems -/

/-- C1: window rollover reset.  Each quota scope independently: whenever
the stored window key of that scope differs from the current period's key,
`check_budget` / `can_generate_script` / `can_fetch_news` zero that
scope's counter (the persisted state comes back with the counter at 0)
before evaluating the limit: `check_budget` then returns `true`, and the
call counters are compared as 0 against the configured maximum — no
assumption is made about the other scopes' keys. -/
theorem C1_window_rollover_reset :
    (∀ (d : BudgetData) (current_month : String),
      d.current_month ≠ current_month →
      (check_budget d current_month).1.total_spend = 0 ∧
        (check_budget d current_month).2 = true)
    ∧ (∀ (u : UsageData) (today current_hour : String) (max_per_day : ℕ),
        u.scripts_date ≠ today →
        (can_generate_script u today current_hour max_per_day).1.scripts_today = 0 ∧
          (can_generate_script u today current_hour max_per_day).2 = decide (0 < max_per_day))
    ∧ (∀ (u : UsageData) (today current_hour : String) (max_per_hour : ℕ),
        u.news_fetch_hour ≠ current_hour →
        (can_fetch_news u today current_hour max_per_hour).1.news_fetches_this_hour = 0 ∧
          (can_fetch_news u today current_hour max_per_hour).2 = decide (0 < max_per_hour)) := by
  refine ⟨?_, ?_, ?_⟩
  · intro d current_month hm
    unfold check_budget MONTHLY_LIMIT
    rw [if_pos hm]
    norm_num
  · intro u today current_hour max_per_day ht
    unfold can_generate_script reset_if_needed
    rw [if_pos ht]
    by_cases h2 : u.news_fetch_hour ≠ current_hour
    · rw [if_pos h2]
      by_cases h3 : max_per_day = 0
      · simp [h3]
      · simp [h3]
        omega
    · rw [if_neg h2]
      by_cases h3 : max_per_day = 0
      · simp [h3]
      · simp [h3]
        omega
  · intro u today current_hour max_per_hour hh
    unfold can_fetch_news reset_if_needed
    by_cases h1 : u.scripts_date ≠ today
    · rw [if_pos h1, if_pos hh]
      by_cases h3 : max_per_hour = 0
      · simp [h3]
      · simp [h3]
        omega
    · rw [if_neg h1, if_pos hh]
      by_cases h3 : max_per_hour = 0
      · simp [h3]
      · simp [h3]
        omega

/-- Witness for C1, one instance per scope.  The spec's example: $4.99
stored under month "2024-04", a check in "2024-05" resets `total_spend`
to 0 and returns `true`.  The script counter resets on a stale day with a
fresh hour key, and the news counter resets on a stale hour within the
same (fresh) day. -/
theorem C1_window_rollover_reset_witness :
    ((check_budget ⟨"2024-04", 499/100, 1/5, 7⟩ "2024-05").1.total_spend = 0 ∧
      (check_budget ⟨"2024-04", 499/100, 1/5, 7⟩ "2024-05").2 = true) ∧
    ((can_generate_script ⟨3, "2024-04-30", 2, "2024-05-01 10"⟩ "2024-05-01" "2024-05-01 10" 5).1.scripts_today = 0 ∧
      (can_generate_script ⟨3, "2024-04-30", 2, "2024-05-01 10"⟩ "2024-05-01" "2024-05-01 10" 5).2 = decide (0 < 5)) ∧
    ((can_fetch_news ⟨3, "2024-05-01", 2, "2024-05-01 09"⟩ "2024-05-01" "2024-05-01 10" 4).1.news_fetches_this_hour = 0 ∧
      (can_fetch_news ⟨3, "2024-05-01", 2, "2024-05-01 09"⟩ "2024-05-01" "2024-05-01 10" 4).2 = decide (0 < 4)) :=
  ⟨C1_window_rollover_reset.1 ⟨"2024-04", 499/100, 1/5, 7⟩ "2024-05" (by decide),
   C1_window_rollover_reset.2.1 ⟨3, "2024-04-30", 2, "2024-05-01 10"⟩
     "2024-05-01" "2024-05-01 10" 5 (by decide),
   C1_window_rollover_reset.2.2 ⟨3, "2024-05-01", 2, "2024-05-01 09"⟩
     "2024-05-01" "2024-05-01 10" 4 (by decide)⟩

/-- C10: check-before-spend with no enforced ceiling.  `check_budget`
returns `true` exactly when, after any month rollover, the stored
`total_spend` is strictly below the $5.00 limit; `record_spending`
unconditionally adds the amount and bumps the run counter; concretely, at
$4.99 a run is permitted, recording $0.30 pushes the total to $5.29 above
the limit, and only the next check returns `false`. -/
theorem C10_check_before_spend :
    (∀ (d : BudgetData) (m : String),
      (check_budget d m).2 = decide ((check_budget d m).1.total_spend < MONTHLY_LIMIT))
    ∧ (∀ (d : BudgetData) (a : ℚ),
        record_spending d a
          = { d with total_spend := d.total_spend + a, runs_this_month := d.runs_this_month + 1 })
    ∧ ((check_budget ⟨"2024-05", 499/100, 0, 7⟩ "2024-05").2 = true
        ∧ (record_spending ⟨"2024-05", 499/100, 0, 7⟩ (3/10)).total_spend = 529/100
        ∧ (record_spending ⟨"2024-05", 499/100, 0, 7⟩ (3/10)).total_spend > MONTHLY_LIMIT
        ∧ (check_budget (record_spending ⟨"2024-05", 499/100, 0, 7⟩ (3/10)) "2024-05").2 = false) := by
  refine ⟨?_, ?_, ?_⟩
  · intro d m
    simp only [check_budget]
    split_ifs with h1 h2 h3 <;>
      simp_all [decide_eq_true_eq, not_lt, not_le]
  · intro d a
    rfl
  · refine ⟨?_, ?_, ?_, ?_⟩ <;>
      norm_num [check_budget, record_spending, MONTHLY_LIMIT]

/-- After one `add_ideas` call the stored list is the last-`MAX_HISTORY`
suffix of (old history ++ new titles). -/
theorem add_ideas_eq_drop (h : List String) (ideas : List (Option String)) :
    add_ideas h ideas
      = (h ++ new_titles ideas).drop ((h ++ new_titles ideas).length - MAX_HISTORY) := by
  unfold add_ideas
  dsimp only
  split
  · rfl
  · next hle =>
    have h0 : (h ++ new_titles ideas).length - MAX_HISTORY = 0 := by omega
    rw [h0, List.drop_zero]

/-- C4: history cap with FIFO eviction.  A `add_ideas` write leaves exactly
the last-50 suffix of (old ++ appended titles) — so the length never
exceeds 50 after any nonempty sequence of calls from any initial list, new
titles sit at the end, and eviction drops the oldest entries; the news
history (`_save_history`) behaves the same with cap 100. -/
theorem C4_history_cap_fifo :
    (∀ (h : List String) (ideas : List (Option String)),
      add_ideas h ideas
        = (h ++ new_titles ideas).drop ((h ++ new_titles ideas).length - 50)
      ∧ (add_ideas h ideas).length ≤ 50
      ∧ add_ideas h ideas <:+ (h ++ new_titles ideas))
    ∧ (∀ (h : List String) (c : List (Option String)) (cs : List (List (Option String))),
        (List.foldl add_ideas h (c :: cs)).length ≤ 50)
    ∧ (∀ (seen : List String) (item_titles : List String),
        save_history seen item_titles
          = (seen ++ item_titles.map fun t => py_slice 50 (py_lower t)).drop
              ((seen ++ item_titles.map fun t => py_slice 50 (py_lower t)).length - 100)
        ∧ (save_history seen item_titles).length ≤ 100
        ∧ save_history seen item_titles <:+ (seen ++ item_titles.map fun t => py_slice 50 (py_lower t))) := by
  have hlen : ∀ (h : List String) (ideas : List (Option String)),
      (add_ideas h ideas).length ≤ 50 := by
    intro h ideas
    rw [add_ideas_eq_drop, List.length_drop]
    have := MAX_HISTORY
    unfold MAX_HISTORY
    omega
  refine ⟨fun h ideas => ⟨add_ideas_eq_drop h ideas, hlen h ideas, ?_⟩, ?_, ?_⟩
  · rw [add_ideas_eq_drop]
    exact List.drop_suffix _ _
  · intro h c cs
    induction cs generalizing h c with
    | nil => exact hlen h c
    | cons c2 cs ih => exact ih (add_ideas h c) c2
  · intro seen item_titles
    refine ⟨rfl, ?_, ?_⟩
    · unfold save_history
      rw [List.length_drop]
      omega
    · exact List.drop_suffix _ _

/-- A batch of eleven distinct items for the chat-webhook delivery. -/
def dummy_item (i : ℕ) : NewsItem :=
  ⟨"id" ++ toString i, "Title " ++ toString i, "src", "", "", none, ScoreVal.num 50, "ai_news"⟩

def eleven_items : List NewsItem := (List.range 11).map dummy_item

/-- C7 (failing-input evaluation): delivering 11 items to the chat-webhook
sink builds embeds from `items[:10]` only, so a single embed-batch POST of
10 embeds is made — not the two POSTs (10 + 1) the spec requires — and the
11th item is dropped (only 10 embeds exist).  The `for i in range(0,
len(embeds), 10)` chunking loop can never see more than 10 embeds. -/
theorem C7_eleven_items_one_post :
    (embed_batches eleven_items).map List.length = [10]
      ∧ (embed_batches eleven_items).length = 1
      ∧ (discord_embeds eleven_items).length = 10
      ∧ ((discord_embeds (eleven_items.take 10) = discord_embeds eleven_items)) := by
  refine ⟨rfl, rfl, rfl, rfl⟩

/-- The `_query_perplexity` body never raises: every outcome is caught by
the `except` clauses and turned into a normal return. -/
theorem query_perplexity_once_ok (api_key : Bool) (outcome : AttemptOutcome) :
    ∃ x, query_perplexity_once api_key outcome = .ok x := by
  cases api_key <;> cases outcome <;> exact ⟨_, rfl⟩

/-- C6 (failing-input evaluation): the retry decorator is inert.  For every
oracle exactly one attempt runs, because the body catches all exceptions;
in particular a transient failure on attempt 0 that would succeed on
attempt 1 still yields `None` after a single attempt.  On success the call
returns content, citations and `cost = tokens * 0.000001` (also added to
`session_cost`); every HTTP-error outcome also yields `None`. -/
theorem C6_retry_never_fires :
    (∀ (api_key : Bool) (outcomes : ℕ → AttemptOutcome),
      (query_perplexity api_key outcomes).2 = 1)
    ∧ (∀ r : ApiResponse,
        query_perplexity true (fun i => if i = 0 then .transport_error else .success r)
          = (.ok (none, 0), 1))
    ∧ (∀ r : ApiResponse,
        query_perplexity true (fun _ => .success r)
          = (.ok (some ⟨r.content, r.citations, r.prompt_tokens + r.completion_tokens,
                        ((r.prompt_tokens + r.completion_tokens : ℕ) : ℚ) * (1 / 1000000)⟩,
                  ((r.prompt_tokens + r.completion_tokens : ℕ) : ℚ) * (1 / 1000000)), 1))
    ∧ (∀ status : ℕ,
        query_perplexity true (fun _ => .http_error status) = (.ok (none, 0), 1)) := by
  refine ⟨?_, fun r => rfl, fun r => rfl, fun status => rfl⟩
  intro api_key outcomes
  unfold query_perplexity retry_two
  obtain ⟨x, hx⟩ := query_perplexity_once_ok api_key (outcomes 0)
  simp only []
  rw [hx]

/-- Backtick-free text passes through the fence-stripping `re.sub` for
```` ```json ```` unchanged. -/
theorem sub_fence_json_id (fuel : ℕ) (l : List Char) (h : ∀ c ∈ l, c ≠ '\x60') :
    sub_fence_json fuel l = l := by
  induction fuel generalizing l with
  | zero => rfl
  | succ fuel ih =>
    cases l with
    | nil => rfl
    | cons c rest =>
      have hc : c ≠ '\x60' := h c (List.mem_cons_self c rest)
      have hrest : ∀ x ∈ rest, x ≠ '\x60' := fun x hx => h x (List.mem_cons_of_mem c hx)
      unfold sub_fence_json
      split
      · rename_i heq
        simp only [List.cons.injEq] at heq
        exact absurd heq.1 hc
      · rename_i heq
        simp only [List.cons.injEq] at heq
        obtain ⟨h1, h2⟩ := heq
        subst h1
        subst h2
        rw [ih rest hrest]
      · rename_i heq
        simp at heq

/-- Backtick-free text passes through the bare-fence `re.sub` unchanged. -/
theorem sub_fence_id (fuel : ℕ) (l : List Char) (h : ∀ c ∈ l, c ≠ '\x60') :
    sub_fence fuel l = l := by
  induction fuel generalizing l with
  | zero => rfl
  | succ fuel ih =>
    cases l with
    | nil => rfl
    | cons c rest =>
      have hc : c ≠ '\x60' := h c (List.mem_cons_self c rest)
      have hrest : ∀ x ∈ rest, x ≠ '\x60' := fun x hx => h x (List.mem_cons_of_mem c hx)
      unfold sub_fence
      split
      · rename_i heq
        simp only [List.cons.injEq] at heq
        exact absurd heq.1 hc
      · rename_i heq
        simp only [List.cons.injEq] at heq
        obtain ⟨h1, h2⟩ := heq
        subst h1
        subst h2
        rw [ih rest hrest]
      · rename_i heq
        simp at heq

/-- C3: lenient JSON-array extraction.  First conjunct, the general bare /
repaired-array law: for every fence-free stripped text running from a `[`
to a `]`, whenever the repair pipeline (newline collapse, then the two
trailing-comma removals) yields a strict-parseable array, `_parse_json`
returns exactly its elements — this covers every bare array (a) and every
trailing-comma array the repair fixes (c).  The remaining conjuncts
instantiate the spec scenarios concretely: (a) a bare two-object array,
(b) an array wrapped in a ```json code fence, (c) a trailing-comma array
spread over lines, prose without brackets giving `[]`, and the necessity
of the repair: strict `loads` rejects the trailing comma. -/
theorem C3_parse_json_recovery :
    (∀ (s : String) (xs : List Json),
      (∀ c ∈ s.data, c ≠ '\x60') →
      py_strip s = s →
      s.data.head? = some '[' →
      s.data.getLast? = some ']' →
      loads ⟨sub_comma_close '\x7d'
          ((sub_comma_close ']'
              ((s.data.map fun c => if c = '\n' then ' ' else c).length + 1)
              (s.data.map fun c => if c = '\n' then ' ' else c)).length + 1)
          (sub_comma_close ']'
              ((s.data.map fun c => if c = '\n' then ' ' else c).length + 1)
              (s.data.map fun c => if c = '\n' then ' ' else c))⟩ = some (Json.arr xs) →
      parse_json s = xs)
    ∧ parse_json "[\x7b\"title\": \"Alpha\"\x7d, \x7b\"title\": \"Beta\"\x7d]"
        = [Json.obj [("title", Json.str "Alpha")], Json.obj [("title", Json.str "Beta")]]
    ∧ parse_json "\x60\x60\x60json\n[\x7b\"t\": \"x\"\x7d]\n\x60\x60\x60"
        = [Json.obj [("t", Json.str "x")]]
    ∧ parse_json "[\n \x7b\"t\": \"x\"\x7d,\n]" = [Json.obj [("t", Json.str "x")]]
    ∧ parse_json "I could not find any recent items today." = []
    ∧ loads "[\x7b\"t\": \"x\"\x7d,]" = none := by
  refine ⟨?_, rfl, rfl, rfl, rfl, rfl⟩
  intro s xs hbt hstrip hhead hlast hparse
  obtain ⟨c0, rest, hcons⟩ : ∃ c0 rest, s.data = c0 :: rest := by
    cases hd : s.data with
    | nil => rw [hd] at hhead; simp at hhead
    | cons a l => exact ⟨a, l, rfl⟩
  have hc0 : c0 = '[' := by
    rw [hcons] at hhead; simpa using hhead
  have hrev : ∃ r0 rev, s.data.reverse = r0 :: rev ∧ r0 = ']' := by
    cases hr : s.data.reverse with
    | nil =>
      have : s.data = [] := by simpa using congrArg List.reverse hr
      rw [this] at hhead; simp at hhead
    | cons a l =>
      refine ⟨a, l, rfl, ?_⟩
      have : s.data.reverse.head? = some ']' := by
        rw [List.head?_reverse]; exact hlast
      rw [hr] at this; simpa using this
  obtain ⟨r0, rev, hrevcons, hr0⟩ := hrev
  have hlen2 : 2 ≤ s.data.length := by
    rcases rest with - | ⟨b, rest2⟩
    · rw [hcons] at hlast
      simp [hc0] at hlast
    · rw [hcons]; simp
  simp only [parse_json]
  rw [hstrip, sub_fence_json_id _ _ hbt, sub_fence_id _ _ hbt]
  rw [show s.data.findIdx? (· = '[') = some 0 by
    rw [hcons, List.findIdx?_cons]
    simp [hc0]]
  rw [show s.data.reverse.findIdx? (· = ']') = some 0 by
    rw [hrevcons, List.findIdx?_cons]
    simp [hr0]]
  dsimp only
  rw [if_pos (by omega : s.data.length - 1 - 0 > 0)]
  rw [List.drop_zero]
  rw [show s.data.length - 1 - 0 + 1 - 0 = s.data.length by omega]
  rw [List.take_length]
  rw [hparse]

/-- Witness for C3: the general conjunct applied to the concrete bare
array of the spec scenario. -/
theorem C3_parse_json_recovery_witness :
    parse_json "[\x7b\"title\": \"Alpha\"\x7d, \x7b\"title\": \"Beta\"\x7d]"
      = [Json.obj [("title", Json.str "Alpha")], Json.obj [("title", Json.str "Beta")]] :=
  C3_parse_json_recovery.1
    "[\x7b\"title\": \"Alpha\"\x7d, \x7b\"title\": \"Beta\"\x7d]"
    [Json.obj [("title", Json.str "Alpha")], Json.obj [("title", Json.str "Beta")]]
    (by decide) rfl rfl rfl rfl

theorem recency_score_nonneg (now : ℚ) (published : Option ℚ) :
    0 ≤ recency_score now published := by
  unfold recency_score
  cases published with
  | none => norm_num
  | some p => exact le_max_left 0 _

theorem relevance_score_nonneg (title : String) : 0 ≤ relevance_score title := by
  unfold relevance_score
  refine le_min (by norm_num) (by positivity)

theorem engagement_score_nonneg (title : String) : 0 ≤ engagement_score title := by
  unfold engagement_score
  dsimp only [List.foldl]
  split_ifs <;> norm_num

/-- C2: total scoring robustness.  For every item — including a missing
publish date, an empty title, or a keyword-free title — the score is in
[0, 100]; the recency component is non-negative and defaults to the fixed
mid-range 20 when the timestamp is unknown, the keyword component is capped
at 30, and the capped sum of the three components is the score. -/
theorem C2_score_bounds (now : ℚ) (title : String) (published : Option ℚ) :
    0 ≤ score_item now title published
    ∧ score_item now title published ≤ 100
    ∧ 0 ≤ recency_score now published
    ∧ recency_score now none = 20
    ∧ relevance_score title ≤ 30
    ∧ score_item now title published
        = min 100 (recency_score now published + relevance_score title + engagement_score title) := by
  refine ⟨?_, ?_, recency_score_nonneg now published, rfl, ?_, rfl⟩
  · refine le_min (by norm_num) ?_
    have h1 := recency_score_nonneg now published
    have h2 := relevance_score_nonneg title
    have h3 := engagement_score_nonneg title
    linarith
  · exact min_le_left _ _
  · exact min_le_left _ _

/-- A property name returned by `find_property` normalizes (strip + lower)
to the normalized search name. -/
theorem find_property_norm {db_properties : List (String × PropType)}
    {name p : String} (h : find_property db_properties name = some p) :
    py_lower (py_strip p) = py_lower (py_strip name) := by
  unfold find_property at h
  cases hfind : db_properties.find?
      (fun q => py_lower (py_strip q.1) == py_lower (py_strip name)) with
  | none => rw [hfind] at h; simp at h
  | some a =>
    rw [hfind] at h
    have h2 : some a.1 = some p := h
    obtain rfl : a.1 = p := by injection h2
    have := List.find?_some hfind
    exact beq_iff_eq.mp this

theorem mem_singleton_key {k p : String} {v val : PropValue}
    (h : (k, v) ∈ [(p, val)]) : k = p := by
  simp only [List.mem_singleton, Prod.mk.injEq] at h
  exact h.1

/-- Every key of the built property map either normalizes (strip + lower)
to one of the seven non-score search names, or was returned by
`find_property` for `"Score"`. -/
theorem build_simple_properties_keys {db_properties : List (String × PropType)}
    {item : NewsItem} {now : ℚ} {k : String} {v : PropValue}
    (h : (k, v) ∈ build_simple_properties db_properties item now) :
    py_lower (py_strip k) ∈
        (["title", "name", "source", "link", "status", "category", "date added"] : List String)
      ∨ find_property db_properties "Score" = some k := by
  unfold build_simple_properties at h
  simp only [List.append_assoc, List.mem_append] at h
  rcases h with h | h | h | h | h | h | h
  · left
    have hk : k = ((find_property db_properties "Title").or
        (find_property db_properties "Name")).getD "Title" := mem_singleton_key h
    cases ht : find_property db_properties "Title" with
    | some p =>
      rw [ht] at hk
      have hk2 : k = p := hk.trans rfl
      rw [hk2, find_property_norm ht]
      decide
    | none =>
      cases hn : find_property db_properties "Name" with
      | some p =>
        rw [ht, hn] at hk
        have hk2 : k = p := hk.trans rfl
        rw [hk2, find_property_norm hn]
        decide
      | none =>
        rw [ht, hn] at hk
        have hk2 : k = "Title" := hk.trans rfl
        rw [hk2]
        decide
  · left
    cases hs : find_property db_properties "Source" with
    | none => rw [hs] at h; simp at h
    | some p =>
      rw [hs] at h
      rw [mem_singleton_key h, find_property_norm hs]
      decide
  · left
    cases hs : find_property db_properties "Link" with
    | none => rw [hs] at h; simp at h
    | some p =>
      rw [hs] at h
      have h1 : (k, v) ∈ (if item.link ≠ "" then [(p, PropValue.url item.link)]
          else ([] : List (String × PropValue))) := h
      by_cases hl : item.link ≠ ""
      · rw [if_pos hl] at h1
        rw [mem_singleton_key h1, find_property_norm hs]
        decide
      · rw [if_neg hl] at h1
        simp at h1
  · right
    cases hs : find_property db_properties "Score" with
    | none => rw [hs] at h; simp at h
    | some p =>
      rw [hs] at h
      have hk := mem_singleton_key h
      subst hk
      rfl
  · left
    cases hs : find_property db_properties "Status" with
    | none => rw [hs] at h; simp at h
    | some p =>
      rw [hs] at h
      have h1 : (k, v) ∈ (match property_type db_properties p with
          | some PropType.status => [(p, PropValue.status_v "New")]
          | some PropType.select => [(p, PropValue.select "New")]
          | _ => ([] : List (String × PropValue))) := h
      rcases hty : property_type db_properties p with - | ty
      · rw [hty] at h1
        simp at h1
      · rw [hty] at h1
        cases ty with
        | status =>
          have h2 : (k, v) ∈ [(p, PropValue.status_v "New")] := h1
          rw [mem_singleton_key h2, find_property_norm hs]
          decide
        | select =>
          have h2 : (k, v) ∈ [(p, PropValue.select "New")] := h1
          rw [mem_singleton_key h2, find_property_norm hs]
          decide
        | multi_select => simp at h1
        | other => simp at h1
  · left
    cases hs : find_property db_properties "Category" with
    | none => rw [hs] at h; simp at h
    | some p =>
      rw [hs] at h
      have h1 : (k, v) ∈ (match property_type db_properties p with
          | some PropType.select =>
            [(p, PropValue.select (if item.category = "ai_news" then "AI" else "Trending"))]
          | some PropType.multi_select =>
            [(p, PropValue.multi_select (if item.category = "ai_news" then "AI" else "Trending"))]
          | _ => ([] : List (String × PropValue))) := h
      rcases hty : property_type db_properties p with - | ty
      · rw [hty] at h1
        simp at h1
      · rw [hty] at h1
        cases ty with
        | status => simp at h1
        | select =>
          have h2 : (k, v) ∈
              [(p, PropValue.select (if item.category = "ai_news" then "AI" else "Trending"))] := h1
          rw [mem_singleton_key h2, find_property_norm hs]
          decide
        | multi_select =>
          have h2 : (k, v) ∈
              [(p, PropValue.multi_select (if item.category = "ai_news" then "AI" else "Trending"))] := h1
          rw [mem_singleton_key h2, find_property_norm hs]
          decide
        | other => simp at h1
  · left
    cases hs : find_property db_properties "Date Added" with
    | none => rw [hs] at h; simp at h
    | some p =>
      rw [hs] at h
      rw [mem_singleton_key h, find_property_norm hs]
      decide

/-- C9: the human-approval field is never auto-set.  For every cached
destination schema and every item, no key of the outbound property map
matches `"Approved"` (even up to the case/whitespace-insensitive matching
the mapper itself uses), whether or not the schema defines such a
property. -/
theorem C9_approved_never_set (db_properties : List (String × PropType))
    (item : NewsItem) (now : ℚ) :
    (build_simple_properties db_properties item now).all
      (fun kv => py_lower (py_strip kv.1) != py_lower (py_strip "Approved")) = true := by
  rw [List.all_eq_true]
  rintro ⟨k, v⟩ hkv
  rcases build_simple_properties_keys hkv with hmem | hscore
  · simp only [bne_iff_ne]
    simp only [List.mem_cons, List.not_mem_nil, or_false] at hmem
    rcases hmem with h | h | h | h | h | h | h <;> rw [h] <;> decide
  · rw [bne_iff_ne, find_property_norm hscore]
    decide

/-- The clamped, rescaled score always lands in the 1–10 destination
range. -/
theorem delivered_score_bounds (v : ScoreVal) :
    1 ≤ delivered_score v ∧ delivered_score v ≤ 10 := by
  cases v with
  | nonNumeric => norm_num [delivered_score]
  | num s =>
    unfold delivered_score round1
    set q : ℚ := max 1 (min 10 (if s > 10 then s / 10 else s)) with hq
    have h1 : 1 ≤ q := le_max_left 1 _
    have h10 : q ≤ 10 := max_le (by norm_num) (min_le_left _ _)
    have hlo : (10 : ℤ) ≤ round (q * 10) := by
      have : round ((10 : ℚ)) ≤ round (q * 10) := by
        rw [round_eq, round_eq]
        exact Int.floor_mono (by linarith)
      simpa using this
    have hhi : round (q * 10) ≤ (100 : ℤ) := by
      have : round (q * 10) ≤ round ((100 : ℚ)) := by
        rw [round_eq, round_eq]
        exact Int.floor_mono (by linarith)
      simpa using this
    constructor
    · rw [le_div_iff₀ (by norm_num : (0:ℚ) < 10)]
      calc (1 : ℚ) * 10 = ((10 : ℤ) : ℚ) := by norm_num
        _ ≤ ((round (q * 10) : ℤ) : ℚ) := by exact_mod_cast hlo
    · rw [div_le_iff₀ (by norm_num : (0:ℚ) < 10)]
      calc ((round (q * 10) : ℤ) : ℚ) ≤ ((100 : ℤ) : ℚ) := by exact_mod_cast hhi
        _ = 10 * 10 := by norm_num

/-- C8: score property mapping.  If the schema (matched case- and
whitespace-insensitively) has no `"Score"` field the built map omits the
score entirely (no key normalizing to `"score"`, and the build is total so
no error); if it has one, the map carries exactly the rescaled-and-clamped
`delivered_score`, which always lies in [1.0, 10.0] and is the fixed 5.0
when the stored score is not numeric. -/
theorem C8_score_mapping (db_properties : List (String × PropType))
    (item : NewsItem) (now : ℚ) :
    (find_property db_properties "Score" = none →
      (build_simple_properties db_properties item now).all
        (fun kv => py_lower (py_strip kv.1) != py_lower (py_strip "Score")) = true)
    ∧ (∀ p, find_property db_properties "Score" = some p →
        (p, PropValue.number (delivered_score item.score))
          ∈ build_simple_properties db_properties item now)
    ∧ (∀ v : ScoreVal, 1 ≤ delivered_score v ∧ delivered_score v ≤ 10)
    ∧ delivered_score ScoreVal.nonNumeric = 5 := by
  refine ⟨?_, ?_, delivered_score_bounds, rfl⟩
  · intro hnone
    rw [List.all_eq_true]
    rintro ⟨k, v⟩ hkv
    rcases build_simple_properties_keys hkv with hmem | hscore
    · simp only [bne_iff_ne]
      simp only [List.mem_cons, List.not_mem_nil, or_false] at hmem
      rcases hmem with h | h | h | h | h | h | h <;> rw [h] <;> decide
    · rw [hnone] at hscore
      exact absurd hscore (by simp)
  · intro p hp
    unfold build_simple_properties
    rw [hp]
    simp only [List.append_assoc, List.mem_append]
    right; right; right; left
    exact List.mem_singleton_self _

/-- Witness for C8: a schema without a Score field yields a map with no
score key; a schema with one receives the delivered score entry. -/
theorem C8_score_mapping_witness :
    ((build_simple_properties [("Name", PropType.other)]
        ⟨"i", "T", "s", "", "", none, ScoreVal.num 55, "ai_news"⟩ 0).all
      (fun kv => py_lower (py_strip kv.1) != py_lower (py_strip "Score")) = true)
    ∧ ("Score",
        PropValue.number (delivered_score (ScoreVal.num 55)))
          ∈ build_simple_properties [("Score", PropType.other), ("Title", PropType.other)]
              ⟨"i", "T", "s", "", "", none, ScoreVal.num 55, "ai_news"⟩ 0 :=
  ⟨(C8_score_mapping [("Name", PropType.other)]
      ⟨"i", "T", "s", "", "", none, ScoreVal.num 55, "ai_news"⟩ 0).1 rfl,
   (C8_score_mapping [("Score", PropType.other), ("Title", PropType.other)]
      ⟨"i", "T", "s", "", "", none, ScoreVal.num 55, "ai_news"⟩ 0).2.1 "Score" rfl⟩

end IdeaGen
